import Mathlib

/-!
# Verification of the LAN audio streaming peer core

A shallow embedding, in Lean 4, of the data plane and control structures of
the audio streaming peer: the wire protocol (`src/protocol.rs`), the
discovery packet format (`src/network/discovery.rs`), the handshake state
machine (`src/network/handshake.rs`), the SPSC ring and adaptive jitter
buffer (`src/audio/buffer.rs`), and the track manager
(`src/tracks/manager.rs`).

Modelling conventions:

* Machine integers (`u8`, `u16`, `u32`, `u64`, `usize`) are `Nat`, with
  explicit `% 2 ^ w` at the points where the Rust code wraps or casts.
  `i32` values are `Int` obtained by reinterpreting a 32-bit pattern.
* Byte strings (`Bytes`, `Vec<u8>`, `&[u8]`) are `List Nat`, each entry
  `< 256` where well-formedness matters.
* Rust `String`s are lists of Unicode scalar values (`List Nat`), encoded
  to UTF-8 bytes at the wire boundary.
* `f32`/`f64` quantities that feed control decisions (the jitter EMA) are
  modelled as `ℚ`; wall-clock inter-arrival times are inputs to the
  functions that read the clock.
* Fallible operations return `Option`/`Bool` exactly as the source does;
  a Rust `assert!` failure is modelled by an `Option.none` result.
-/

/-! ## Byte-level primitives (little-endian encodings) -/

/-- Little-endian encoding of a `u16` value (`put_u16_le`). -/
def u16le (n : Nat) : List Nat :=
  [n % 256, n / 256 % 256]

/-- Little-endian encoding of a `u32` value (`put_u32_le`). -/
def u32le (n : Nat) : List Nat :=
  [n % 256, n / 256 % 256, n / 65536 % 256, n / 16777216 % 256]

/-- Little-endian encoding of a `u64` value (`put_u64_le`). -/
def u64le (n : Nat) : List Nat :=
  [n % 256, n / 256 % 256, n / 65536 % 256, n / 16777216 % 256,
   n / 4294967296 % 256, n / 1099511627776 % 256,
   n / 281474976710656 % 256, n / 72057594037927936 % 256]

/-- Read a little-endian `u16` from two bytes (`get_u16_le`,
`u16::from_le_bytes`). -/
def readU16le (b0 b1 : Nat) : Nat := b0 + 256 * b1

/-- Read a little-endian `u32` from four bytes (`get_u32_le`,
`u32::from_le_bytes`). -/
def readU32le (b0 b1 b2 b3 : Nat) : Nat :=
  b0 + 256 * b1 + 65536 * b2 + 16777216 * b3

/-- Read a little-endian `u64` from eight bytes (`get_u64_le`,
`u64::from_le_bytes`). -/
def readU64le (b0 b1 b2 b3 b4 b5 b6 b7 : Nat) : Nat :=
  b0 + 256 * b1 + 65536 * b2 + 16777216 * b3 + 4294967296 * b4 +
  1099511627776 * b5 + 281474976710656 * b6 + 72057594037927936 * b7

/-! ## `src/protocol.rs` — audio packet wire format -/

/-- `PACKET_MAGIC` from `src/protocol.rs`. -/
def PACKET_MAGIC : Nat := 0xAF01

/-- `HEADER_SIZE` from `src/protocol.rs`. -/
def HEADER_SIZE : Nat := 16

/-- `PacketFlags(u8)` from `src/protocol.rs`: a newtype over one byte. -/
structure PacketFlags where
  byte : Nat
deriving DecidableEq

/-- `PacketFlags::KEYFRAME`. -/
def PacketFlags.KEYFRAME : Nat := 0x01

/-- `PacketFlags::STEREO`. -/
def PacketFlags.STEREO : Nat := 0x02

/-- `PacketFlags::FEC`. -/
def PacketFlags.FEC : Nat := 0x04

/-- `PacketFlags::new`. -/
def PacketFlags.new : PacketFlags := ⟨0⟩

/-- `PacketFlags::set_keyframe` (`|=` on true, `&= !KEYFRAME` on false;
the `u8` complement of `0x01` is `0xFE`). -/
def PacketFlags.set_keyframe (f : PacketFlags) (value : Bool) : PacketFlags :=
  if value then ⟨f.byte ||| PacketFlags.KEYFRAME⟩ else ⟨f.byte &&& 0xFE⟩

/-- `PacketFlags::set_stereo` (the `u8` complement of `0x02` is `0xFD`). -/
def PacketFlags.set_stereo (f : PacketFlags) (value : Bool) : PacketFlags :=
  if value then ⟨f.byte ||| PacketFlags.STEREO⟩ else ⟨f.byte &&& 0xFD⟩

/-- `PacketFlags::set_fec` (the `u8` complement of `0x04` is `0xFB`). -/
def PacketFlags.set_fec (f : PacketFlags) (value : Bool) : PacketFlags :=
  if value then ⟨f.byte ||| PacketFlags.FEC⟩ else ⟨f.byte &&& 0xFB⟩

/-- `PacketFlags::is_keyframe`. -/
def PacketFlags.is_keyframe (f : PacketFlags) : Bool :=
  f.byte &&& PacketFlags.KEYFRAME != 0

/-- `PacketFlags::is_stereo`. -/
def PacketFlags.is_stereo (f : PacketFlags) : Bool :=
  f.byte &&& PacketFlags.STEREO != 0

/-- `AudioPacket` from `src/protocol.rs`; `payload : Bytes` is a byte
list. -/
structure AudioPacket where
  track_id : Nat
  flags : PacketFlags
  sequence : Nat
  timestamp : Nat
  payload : List Nat
deriving DecidableEq

/-- Well-formedness guaranteed in Rust by the field types
(`u8`, `u8`, `u32`, `u64`, `Bytes`). -/
def AudioPacket.Wf (p : AudioPacket) : Prop :=
  p.track_id < 256 ∧ p.flags.byte < 256 ∧ p.sequence < 2 ^ 32 ∧
  p.timestamp < 2 ^ 64 ∧ ∀ b ∈ p.payload, b < 256

/-- `AudioPacket::serialize`: magic (u16 LE), track id, flags byte,
sequence (u32 LE), timestamp (u64 LE), then the payload. -/
def AudioPacket.serialize (p : AudioPacket) : List Nat :=
  u16le PACKET_MAGIC ++ [p.track_id] ++ [p.flags.byte] ++
  u32le p.sequence ++ u64le p.timestamp ++ p.payload

/-- `AudioPacket::deserialize`: `None` if fewer than `HEADER_SIZE` bytes,
`None` on a magic mismatch, otherwise the decoded fields with the
remaining bytes as payload. -/
def AudioPacket.deserialize (data : List Nat) : Option AudioPacket :=
  if data.length < HEADER_SIZE then none
  else
    match data with
    | b0 :: b1 :: b2 :: b3 :: b4 :: b5 :: b6 :: b7 ::
      b8 :: b9 :: b10 :: b11 :: b12 :: b13 :: b14 :: b15 :: rest =>
        if readU16le b0 b1 ≠ PACKET_MAGIC then none
        else
          some { track_id := b2
                 flags := ⟨b3⟩
                 sequence := readU32le b4 b5 b6 b7
                 timestamp := readU64le b8 b9 b10 b11 b12 b13 b14 b15
                 payload := rest }
    | _ => none

/-- The concrete packet of scenario S1: track 5, stereo and keyframe flags,
sequence 12345, timestamp 9876543210, payload `[1,2,3,4,5]`. -/
def s1Packet : AudioPacket :=
  { track_id := 5
    flags := (PacketFlags.new.set_stereo true).set_keyframe true
    sequence := 12345
    timestamp := 9876543210
    payload := [1, 2, 3, 4, 5] }

/-! ## UTF-8 encoding and `String::from_utf8_lossy`

Rust `String` values are modelled as lists of Unicode scalar values.
`utf8EncodeChar`/`utf8Encode` model `str::as_bytes` (the UTF-8 encoding);
`utf8Lossy` models `String::from_utf8_lossy` at the level of scalar
values: each maximal invalid subsequence's rejected prefix (1 to 3 bytes,
per the UTF-8 validation automaton) is replaced by U+FFFD, and an
incomplete sequence at the end of input yields a single U+FFFD. -/

/-- A Unicode scalar value: below `0x110000` and not a surrogate. -/
def ValidScalar (c : Nat) : Prop :=
  c < 0x110000 ∧ ¬(0xD800 ≤ c ∧ c ≤ 0xDFFF)

instance (c : Nat) : Decidable (ValidScalar c) := by
  unfold ValidScalar; infer_instance

/-- UTF-8 encoding of one scalar value. -/
def utf8EncodeChar (c : Nat) : List Nat :=
  if c < 0x80 then [c]
  else if c < 0x800 then [0xC0 + c / 64, 0x80 + c % 64]
  else if c < 0x10000 then
    [0xE0 + c / 4096, 0x80 + c / 64 % 64, 0x80 + c % 64]
  else
    [0xF0 + c / 262144, 0x80 + c / 4096 % 64, 0x80 + c / 64 % 64,
     0x80 + c % 64]

/-- UTF-8 encoding of a string (`str::as_bytes`). -/
def utf8Encode (s : List Nat) : List Nat :=
  (s.map utf8EncodeChar).flatten

/-- Lower bound for the second byte of a multi-byte sequence headed by
`b` (the UTF-8 validation automaton excludes overlong encodings). -/
def sndLo (b : Nat) : Nat :=
  if b = 0xE0 then 0xA0 else if b = 0xF0 then 0x90 else 0x80

/-- Upper bound for the second byte of a multi-byte sequence headed by
`b` (excludes surrogates and values above `0x10FFFF`). -/
def sndHi (b : Nat) : Nat :=
  if b = 0xED then 0x9F else if b = 0xF4 then 0x8F else 0xBF

/-- Second-byte check of the UTF-8 validation automaton. -/
def sndOk (b b1 : Nat) : Prop := sndLo b ≤ b1 ∧ b1 ≤ sndHi b

instance (b b1 : Nat) : Decidable (sndOk b b1) := by
  unfold sndOk; infer_instance

/-- Continuation-byte check (third and fourth bytes). -/
def contOk (x : Nat) : Prop := 0x80 ≤ x ∧ x ≤ 0xBF

instance (x : Nat) : Decidable (contOk x) := by
  unfold contOk; infer_instance

/-- Scalar value of a two-byte sequence. -/
def dec2 (b b1 : Nat) : Nat := (b - 0xC0) * 64 + (b1 - 0x80)

/-- Scalar value of a three-byte sequence. -/
def dec3 (b b1 b2 : Nat) : Nat :=
  (b - 0xE0) * 4096 + (b1 - 0x80) * 64 + (b2 - 0x80)

/-- Scalar value of a four-byte sequence. -/
def dec4 (b b1 b2 b3 : Nat) : Nat :=
  (b - 0xF0) * 262144 + (b1 - 0x80) * 4096 + (b2 - 0x80) * 64 + (b3 - 0x80)

/-- `String::from_utf8_lossy`, producing scalar values: each rejected
prefix of an invalid sequence (1 to 3 bytes, per the UTF-8 validation
automaton) is replaced by U+FFFD and decoding resumes at the first
unconsumed byte; an incomplete sequence at the end of input yields a
single U+FFFD. -/
def utf8Lossy : List Nat → List Nat
  | [] => []
  | [b] =>
    if b < 0x80 then [b] else [0xFFFD]
  | [b, b1] =>
    if b < 0x80 then b :: utf8Lossy [b1]
    else if b < 0xC2 then 0xFFFD :: utf8Lossy [b1]
    else if b < 0xE0 then
      if sndOk b b1 then [dec2 b b1] else 0xFFFD :: utf8Lossy [b1]
    else if b < 0xF5 then
      if sndOk b b1 then [0xFFFD] else 0xFFFD :: utf8Lossy [b1]
    else 0xFFFD :: utf8Lossy [b1]
  | [b, b1, b2] =>
    if b < 0x80 then b :: utf8Lossy [b1, b2]
    else if b < 0xC2 then 0xFFFD :: utf8Lossy [b1, b2]
    else if b < 0xE0 then
      if sndOk b b1 then dec2 b b1 :: utf8Lossy [b2]
      else 0xFFFD :: utf8Lossy [b1, b2]
    else if b < 0xF0 then
      if sndOk b b1 then
        if contOk b2 then [dec3 b b1 b2] else 0xFFFD :: utf8Lossy [b2]
      else 0xFFFD :: utf8Lossy [b1, b2]
    else if b < 0xF5 then
      if sndOk b b1 then
        if contOk b2 then [0xFFFD] else 0xFFFD :: utf8Lossy [b2]
      else 0xFFFD :: utf8Lossy [b1, b2]
    else 0xFFFD :: utf8Lossy [b1, b2]
  | b :: b1 :: b2 :: b3 :: rest =>
    if b < 0x80 then b :: utf8Lossy (b1 :: b2 :: b3 :: rest)
    else if b < 0xC2 then 0xFFFD :: utf8Lossy (b1 :: b2 :: b3 :: rest)
    else if b < 0xE0 then
      if sndOk b b1 then dec2 b b1 :: utf8Lossy (b2 :: b3 :: rest)
      else 0xFFFD :: utf8Lossy (b1 :: b2 :: b3 :: rest)
    else if b < 0xF0 then
      if sndOk b b1 then
        if contOk b2 then dec3 b b1 b2 :: utf8Lossy (b3 :: rest)
        else 0xFFFD :: utf8Lossy (b2 :: b3 :: rest)
      else 0xFFFD :: utf8Lossy (b1 :: b2 :: b3 :: rest)
    else if b < 0xF5 then
      if sndOk b b1 then
        if contOk b2 then
          if contOk b3 then dec4 b b1 b2 b3 :: utf8Lossy rest
          else 0xFFFD :: utf8Lossy (b3 :: rest)
        else 0xFFFD :: utf8Lossy (b2 :: b3 :: rest)
      else 0xFFFD :: utf8Lossy (b1 :: b2 :: b3 :: rest)
    else 0xFFFD :: utf8Lossy (b1 :: b2 :: b3 :: rest)

/-! ## `src/network/discovery.rs` — discovery packet format -/

/-- `DISCOVERY_MAGIC = b"LAND"`. -/
def DISCOVERY_MAGIC : List Nat := [0x4C, 0x41, 0x4E, 0x44]

/-- `DiscoveryPacketType` (`repr(u8)`). -/
inductive DiscoveryPacketType
  | SenderBeacon
  | ReceiverBeacon
  | Request
  | Response
deriving DecidableEq

/-- The `repr(u8)` discriminant (`as u8`). -/
def DiscoveryPacketType.toByte : DiscoveryPacketType → Nat
  | .SenderBeacon => 0x01
  | .ReceiverBeacon => 0x02
  | .Request => 0x03
  | .Response => 0x04

/-- `TryFrom<u8> for DiscoveryPacketType`. -/
def DiscoveryPacketType.try_from (value : Nat) : Option DiscoveryPacketType :=
  if value = 0x01 then some .SenderBeacon
  else if value = 0x02 then some .ReceiverBeacon
  else if value = 0x03 then some .Request
  else if value = 0x04 then some .Response
  else none

/-- `DiscoveryPacket`; `name : String` is a list of Unicode scalar
values. -/
structure DiscoveryPacket where
  packet_type : DiscoveryPacketType
  audio_port : Nat
  name : List Nat
deriving DecidableEq

/-- `DiscoveryPacket::new`: the name is limited with
`name.chars().take(255).collect()` — 255 characters, not bytes. -/
def DiscoveryPacket.new (packet_type : DiscoveryPacketType)
    (audio_port : Nat) (name : List Nat) : DiscoveryPacket :=
  { packet_type, audio_port, name := name.take 255 }

/-- `DiscoveryPacket::serialize`: magic, type byte, port (u16 LE), then
`name_bytes.len() as u8` (the `usize` length truncated to one byte) and
the full name bytes. -/
def DiscoveryPacket.serialize (p : DiscoveryPacket) : List Nat :=
  let name_bytes := utf8Encode p.name
  DISCOVERY_MAGIC ++ [p.packet_type.toByte] ++ u16le p.audio_port ++
    [name_bytes.length % 256] ++ name_bytes

/-- `DiscoveryPacket::deserialize`: `None` below 8 bytes or on a magic
mismatch or unknown type byte; reads `name_len` bytes of name through
`String::from_utf8_lossy`. -/
def DiscoveryPacket.deserialize (data : List Nat) : Option DiscoveryPacket :=
  if data.length < 8 then none
  else if data.take 4 ≠ DISCOVERY_MAGIC then none
  else
    match data with
    | _ :: _ :: _ :: _ :: b4 :: b5 :: b6 :: b7 :: rest =>
        match DiscoveryPacketType.try_from b4 with
        | none => none
        | some packet_type =>
            if rest.length + 8 < 8 + b7 then none
            else
              some { packet_type
                     audio_port := readU16le b5 b6
                     name := utf8Lossy (rest.take b7) }
    | _ => none

/-! ## `src/network/handshake.rs` — capabilities and handshake manager -/

/-- `HandshakePacketType` (`repr(u8)`). -/
inductive HandshakePacketType
  | Hello
  | HelloAck
  | SyncRequest
  | SyncResponse
  | Ping
  | Pong
  | Goodbye
  | ErrorPacket
deriving DecidableEq

/-- `PeerCapabilities`. -/
structure PeerCapabilities where
  can_send : Bool
  can_receive : Bool
  supports_opus : Bool
  supports_fec : Bool
  supports_stereo : Bool
  max_tracks : Nat
deriving DecidableEq

/-- `PeerCapabilities::full`. -/
def PeerCapabilities.full : PeerCapabilities :=
  { can_send := true, can_receive := true, supports_opus := true,
    supports_fec := true, supports_stereo := true, max_tracks := 16 }

/-- `PeerCapabilities::sender_only`. -/
def PeerCapabilities.sender_only : PeerCapabilities :=
  { can_send := true, can_receive := false, supports_opus := true,
    supports_fec := true, supports_stereo := true, max_tracks := 16 }

/-- `PeerCapabilities::receiver_only`. -/
def PeerCapabilities.receiver_only : PeerCapabilities :=
  { can_send := false, can_receive := true, supports_opus := true,
    supports_fec := true, supports_stereo := true, max_tracks := 16 }

/-- `PeerCapabilities::to_bytes`: a flags byte built with `|=` and the
max-tracks byte. -/
def PeerCapabilities.to_bytes (c : PeerCapabilities) : List Nat :=
  let f0 : Nat := 0
  let f1 := if c.can_send then f0 ||| 0x01 else f0
  let f2 := if c.can_receive then f1 ||| 0x02 else f1
  let f3 := if c.supports_opus then f2 ||| 0x04 else f2
  let f4 := if c.supports_fec then f3 ||| 0x08 else f3
  let f5 := if c.supports_stereo then f4 ||| 0x10 else f4
  [f5, c.max_tracks]

/-- `PeerCapabilities::from_bytes`: `None` below two bytes. -/
def PeerCapabilities.from_bytes (data : List Nat) : Option PeerCapabilities :=
  match data with
  | b0 :: b1 :: _ =>
      some { can_send := b0 &&& 0x01 != 0
             can_receive := b0 &&& 0x02 != 0
             supports_opus := b0 &&& 0x04 != 0
             supports_fec := b0 &&& 0x08 != 0
             supports_stereo := b0 &&& 0x10 != 0
             max_tracks := b1 }
  | _ => none

/-- `PeerCapabilities::is_compatible_with`: one side must send and the
other receive, and both must support Opus. -/
def PeerCapabilities.is_compatible_with (a other : PeerCapabilities) : Bool :=
  ((a.can_send && other.can_receive) || (a.can_receive && other.can_send)) &&
    (a.supports_opus && other.supports_opus)

/-- `HandshakePacket`; the payload is a byte list. -/
structure HandshakePacket where
  packet_type : HandshakePacketType
  session_id : Nat
  payload : List Nat
deriving DecidableEq

/-- `HandshakePacket::hello`: payload
`audio_port(2 LE) caps(2) name_len(1) name(name_len)`, the name byte
length capped with `.min(255)`. -/
def HandshakePacket.hello (session_id : Nat) (name : List Nat)
    (audio_port : Nat) (capabilities : PeerCapabilities) : HandshakePacket :=
  let name_bytes := utf8Encode name
  let name_len := min name_bytes.length 255
  { packet_type := .Hello
    session_id
    payload := u16le audio_port ++ capabilities.to_bytes ++ [name_len] ++
      name_bytes.take name_len }

/-- `HandshakePacket::hello_ack`: a hello with the type replaced. -/
def HandshakePacket.hello_ack (session_id : Nat) (name : List Nat)
    (audio_port : Nat) (capabilities : PeerCapabilities) : HandshakePacket :=
  { HandshakePacket.hello session_id name audio_port capabilities with
      packet_type := .HelloAck }

/-- `HandshakePacket::parse_hello`: port, capabilities and name from the
payload; the name goes through `String::from_utf8_lossy`. -/
def HandshakePacket.parse_hello (p : HandshakePacket) :
    Option (Nat × PeerCapabilities × List Nat) :=
  if p.payload.length < 5 then none
  else
    match p.payload with
    | b0 :: b1 :: b2 :: b3 :: b4 :: rest =>
        match PeerCapabilities.from_bytes [b2, b3] with
        | none => none
        | some capabilities =>
            if rest.length + 5 < 5 + b4 then none
            else some (readU16le b0 b1, capabilities, utf8Lossy (rest.take b4))
    | _ => none

/-- `HandshakePacket::pong`. -/
def HandshakePacket.pong (session_id : Nat) : HandshakePacket :=
  { packet_type := .Pong, session_id, payload := [] }

/-- `HandshakePacket::error`: payload `msg_len(1) msg(msg_len)`, the
message byte length capped with `.min(255)`. -/
def HandshakePacket.error (session_id : Nat) (message : List Nat) :
    HandshakePacket :=
  let msg_bytes := utf8Encode message
  let msg_len := min msg_bytes.length 255
  { packet_type := .ErrorPacket
    session_id
    payload := [msg_len] ++ msg_bytes.take msg_len }

/-- `HandshakePacket::parse_error`. -/
def HandshakePacket.parse_error (p : HandshakePacket) : Option (List Nat) :=
  match p.payload with
  | [] => some []
  | b0 :: rest =>
      if rest.length + 1 < 1 + b0 then none
      else some (utf8Lossy (rest.take b0))

/-- `HandshakeState`; the `Instant` fields (`sent_at`, `connected_at`)
are dropped — no claim depends on wall-clock values. -/
inductive HandshakeState
  | Idle
  | HelloSent
  | HelloReceived (peer_caps : PeerCapabilities)
  | Connected (peer_name : List Nat) (peer_caps : PeerCapabilities)
      (audio_port : Nat)
  | Failed (reason : List Nat)
deriving DecidableEq

/-- Association-list insert with `HashMap::insert` semantics (replace the
entry for an existing key, append otherwise). -/
def mapInsert {α : Type} (k : Nat) (v : α) : List (Nat × α) → List (Nat × α)
  | [] => [(k, v)]
  | (k', v') :: rest =>
      if k = k' then (k, v) :: rest else (k', v') :: mapInsert k v rest

/-- Association-list removal (`HashMap::remove`). -/
def mapRemove {α : Type} (k : Nat) (l : List (Nat × α)) : List (Nat × α) :=
  l.filter (fun p => p.1 ≠ k)

/-- Association-list lookup (`HashMap::get`). -/
def mapLookup {α : Type} (k : Nat) : List (Nat × α) → Option α
  | [] => none
  | (k', v) :: rest => if k = k' then some v else mapLookup k rest

/-- The message of the incompatibility `Error` reply, scalar values of
`"Несовместимые возможности пиров"`. -/
def incompatibleMsg : List Nat :=
  [1053, 1077, 1089, 1086, 1074, 1084, 1077, 1089, 1090, 1080, 1084, 1099,
   1077, 32, 1074, 1086, 1079, 1084, 1086, 1078, 1085, 1086, 1089, 1090,
   1080, 32, 1087, 1080, 1088, 1086, 1074]

/-- `HandshakeManager`; peer socket addresses are abstracted as `Nat`
keys, and the `states` map is an association list. -/
structure HandshakeManager where
  our_name : List Nat
  our_audio_port : Nat
  our_capabilities : PeerCapabilities
  states : List (Nat × HandshakeState)
  next_session_id : Nat
deriving DecidableEq

/-- `HandshakeManager::new`. -/
def HandshakeManager.new (name : List Nat) (audio_port : Nat)
    (capabilities : PeerCapabilities) : HandshakeManager :=
  { our_name := name, our_audio_port := audio_port,
    our_capabilities := capabilities, states := [], next_session_id := 1 }

/-- `HandshakeManager::process_packet`, returning the updated manager and
the optional reply. -/
def HandshakeManager.process_packet (m : HandshakeManager) (peer_addr : Nat)
    (packet : HandshakePacket) : HandshakeManager × Option HandshakePacket :=
  match packet.packet_type with
  | .Hello =>
      match packet.parse_hello with
      | some (audio_port, peer_caps, peer_name) =>
          if ¬ m.our_capabilities.is_compatible_with peer_caps then
            (m, some (HandshakePacket.error packet.session_id incompatibleMsg))
          else
            ({ m with
                states := mapInsert peer_addr
                  (HandshakeState.Connected peer_name peer_caps audio_port)
                  m.states },
             some (HandshakePacket.hello_ack packet.session_id m.our_name
               m.our_audio_port m.our_capabilities))
      | none => (m, none)
  | .HelloAck =>
      match packet.parse_hello with
      | some (audio_port, peer_caps, peer_name) =>
          ({ m with
              states := mapInsert peer_addr
                (HandshakeState.Connected peer_name peer_caps audio_port)
                m.states }, none)
      | none => (m, none)
  | .Ping => (m, some (HandshakePacket.pong packet.session_id))
  | .Goodbye => ({ m with states := mapRemove peer_addr m.states }, none)
  | .ErrorPacket =>
      let reason := packet.parse_error.getD []
      ({ m with
          states := mapInsert peer_addr (HandshakeState.Failed reason)
            m.states },
       none)
  | _ => (m, none)

/-- `HandshakeManager::get_state`. -/
def HandshakeManager.get_state (m : HandshakeManager) (peer_addr : Nat) :
    Option HandshakeState :=
  mapLookup peer_addr m.states

/-! ## `src/tracks/manager.rs` — track manager (mute / solo) -/

/-- `TrackError` (the variants reached by the modelled operations). -/
inductive TrackError
  | MaxTracksReached (n : Nat)
  | AlreadyExists (id : Nat)
  | NotFound (id : Nat)
deriving DecidableEq

/-- The mute/solo portion of `Track` (`src/tracks/track.rs`); the codec
configuration, statistics and level meter play no part in
`should_output` and are omitted. `Track::new` starts unmuted and
unsoloed. -/
structure Track where
  muted : Bool
  solo : Bool
deriving DecidableEq

/-- `Track::new`. -/
def Track.new : Track := { muted := false, solo := false }

/-- `TrackManager`: the `DashMap<u8, Track>` is an association list, the
`AtomicU8` counter a `Nat` wrapped modulo 256 on increment, and the
cached `solo_active` flag a `Bool`. The event bus is omitted (no claim
depends on events). -/
structure TrackManager where
  tracks : List (Nat × Track)
  next_id : Nat
  max_tracks : Nat
  solo_active : Bool
deriving DecidableEq

/-- `MAX_TRACKS` (from `src/constants.rs`, not under `src/`; the spec
bounds it by 256 and only its positivity matters here). -/
def MAX_TRACKS : Nat := 256

/-- `TrackManager::new`. -/
def TrackManager.new : TrackManager :=
  { tracks := [], next_id := 0, max_tracks := MAX_TRACKS,
    solo_active := false }

/-- Does any entry of the map have `is_solo()` set
(`TrackManager::update_solo_state`'s scan)? -/
def anySolo (tracks : List (Nat × Track)) : Bool :=
  tracks.any (fun p => p.2.solo)

/-- `TrackManager::create_track` with an optional caller-provided id
(`config.track_id`): capacity check, then id assignment
(`fetch_add` wraps the `AtomicU8`), then collision check. -/
def TrackManager.create_track (m : TrackManager) (track_id : Option Nat) :
    TrackManager × Except TrackError Nat :=
  if m.tracks.length ≥ m.max_tracks then
    (m, .error (.MaxTracksReached m.max_tracks))
  else
    let (id, m) := match track_id with
      | some id => (id, m)
      | none => (m.next_id, { m with next_id := (m.next_id + 1) % 256 })
    if (mapLookup id m.tracks).isSome then
      (m, .error (.AlreadyExists id))
    else
      ({ m with tracks := mapInsert id Track.new m.tracks }, .ok id)

/-- Update the track stored under `id`, if present. -/
def mapAdjust (id : Nat) (f : Track → Track) :
    List (Nat × Track) → List (Nat × Track)
  | [] => []
  | (k, t) :: rest =>
      if id = k then (k, f t) :: rest else (k, t) :: mapAdjust id f rest

/-- `TrackManager::set_muted`. -/
def TrackManager.set_muted (m : TrackManager) (track_id : Nat)
    (muted : Bool) : TrackManager × Except TrackError Unit :=
  match mapLookup track_id m.tracks with
  | none => (m, .error (.NotFound track_id))
  | some _ =>
      ({ m with
          tracks := mapAdjust track_id (fun t => { t with muted := muted })
            m.tracks }, .ok ())

/-- `TrackManager::set_solo` (flips the flag, then
`update_solo_state` recomputes `solo_active`). -/
def TrackManager.set_solo (m : TrackManager) (track_id : Nat)
    (solo : Bool) : TrackManager × Except TrackError Unit :=
  match mapLookup track_id m.tracks with
  | none => (m, .error (.NotFound track_id))
  | some _ =>
      let tracks := mapAdjust track_id (fun t => { t with solo := solo })
        m.tracks
      ({ m with tracks := tracks, solo_active := anySolo tracks }, .ok ())

/-- `TrackManager::remove_track` (removal also re-runs
`update_solo_state`). -/
def TrackManager.remove_track (m : TrackManager) (track_id : Nat) :
    TrackManager × Except TrackError Unit :=
  match mapLookup track_id m.tracks with
  | none => (m, .error (.NotFound track_id))
  | some _ =>
      let tracks := mapRemove track_id m.tracks
      ({ m with tracks := tracks, solo_active := anySolo tracks }, .ok ())

/-- `TrackManager::should_output`: false for unknown or muted tracks;
under active solo only soloed tracks play; otherwise every unmuted track
plays. -/
def TrackManager.should_output (m : TrackManager) (track_id : Nat) : Bool :=
  match mapLookup track_id m.tracks with
  | some track =>
      if track.muted then false
      else if m.solo_active then track.solo
      else true
  | none => false

/-- The cached `solo_active` flag agrees with the map scan. -/
def SoloInv (m : TrackManager) : Prop :=
  m.solo_active = anySolo m.tracks

/-- A concrete reachable manager used in the witness: one track (id 0),
created on a fresh manager. -/
def soloWitnessManager : TrackManager := (TrackManager.new.create_track none).1

/-! ## `src/audio/buffer.rs` — `AudioFrame` and the SPSC `RingBuffer` -/

/-- `AudioFrame`: interleaved `f32` samples (modelled as `ℚ`), channel
count, timestamp (µs) and sequence number. -/
structure AudioFrame where
  samples : List ℚ
  channels : Nat
  timestamp : Nat
  sequence : Nat
deriving DecidableEq

/-- `AudioFrame::new`. -/
def AudioFrame.new (samples : List ℚ) (channels timestamp sequence : Nat) :
    AudioFrame :=
  { samples, channels, timestamp, sequence }

/-- `RingBuffer`: the `crossbeam::queue::ArrayQueue` (an external crate,
contractually a bounded FIFO queue that rejects pushes when `len ==
capacity`) is a `List` with a capacity bound, plus the two atomic
counters. The SPSC interleavings of claim C8 are sequentialised: each
`push`/`pop` is one atomic step. -/
structure RingBuffer where
  queue : List AudioFrame
  capacity : Nat
  overflow_count : Nat
  underrun_count : Nat
deriving DecidableEq

/-- `RingBuffer::new`. -/
def RingBuffer.new (capacity : Nat) : RingBuffer :=
  { queue := [], capacity, overflow_count := 0, underrun_count := 0 }

/-- `RingBuffer::push`: `false` and an overflow increment when the queue
is full. -/
def RingBuffer.push (rb : RingBuffer) (frame : AudioFrame) :
    RingBuffer × Bool :=
  if rb.queue.length = rb.capacity then
    ({ rb with overflow_count := rb.overflow_count + 1 }, false)
  else
    ({ rb with queue := rb.queue ++ [frame] }, true)

/-- `RingBuffer::pop`: `none` and an underrun increment when empty. -/
def RingBuffer.pop (rb : RingBuffer) : RingBuffer × Option AudioFrame :=
  match rb.queue with
  | [] => ({ rb with underrun_count := rb.underrun_count + 1 }, none)
  | f :: rest => ({ rb with queue := rest }, some f)

/-- `RingBuffer::len`. -/
def RingBuffer.len (rb : RingBuffer) : Nat := rb.queue.length

/-- One step of an SPSC interleaving. -/
inductive RBOp
  | push (frame : AudioFrame)
  | pop
deriving DecidableEq

/-- Outcome of running a sequence of operations: final state, counts of
successful and failed pushes and successful pops, the successfully pushed
frames in order, and the successfully popped frames in order. -/
structure RBRun where
  state : RingBuffer
  okPush : Nat
  failPush : Nat
  okPop : Nat
  pushed : List AudioFrame
  popped : List AudioFrame
deriving DecidableEq

/-- Run a list of `push`/`pop` calls from a state, collecting outcomes. -/
def runOps (rb : RingBuffer) : List RBOp → RBRun
  | [] => { state := rb, okPush := 0, failPush := 0, okPop := 0,
            pushed := [], popped := [] }
  | RBOp.push f :: ops =>
      match rb.push f with
      | (rb', true) =>
          let r := runOps rb' ops
          { r with okPush := r.okPush + 1, pushed := f :: r.pushed }
      | (rb', false) =>
          let r := runOps rb' ops
          { r with failPush := r.failPush + 1 }
  | RBOp.pop :: ops =>
      match rb.pop with
      | (rb', some f) =>
          let r := runOps rb' ops
          { r with okPop := r.okPop + 1, popped := f :: r.popped }
      | (rb', none) => runOps rb' ops

/-! ## `src/audio/buffer.rs` — adaptive `JitterBuffer` -/

/-- `u32::wrapping_sub`. -/
def wrappingSub32 (a b : Nat) : Nat :=
  (a % 2 ^ 32 + (2 ^ 32 - b % 2 ^ 32)) % 2 ^ 32

/-- Reinterpret the low 32 bits as an `i32` (`as i32`). -/
def toI32 (n : Nat) : Int :=
  if n % 2 ^ 32 < 2 ^ 31 then (n % 2 ^ 32 : Int)
  else (n % 2 ^ 32 : Int) - 2 ^ 32

/-- `f64::ceil` on the ℚ model of the jitter estimate:
`⌈q⌉ = -⌊-q⌋`, with `⌊a/b⌋ = a.fdiv b` for `b > 0`. -/
def qCeil (q : ℚ) : Int := -((-q.num).fdiv (q.den : Int))

/-- `Ord::clamp` on `usize` (the source call site always has
`lo = min_delay ≤ hi = max_delay`; Rust's `clamp` asserts `lo ≤ hi`). -/
def rustClamp (x lo hi : Nat) : Nat :=
  if x < lo then lo else if x > hi then hi else x

/-- `usize::is_power_of_two` (documented contract: true exactly on the
powers of two; see `isPowerOfTwo_iff`). -/
def isPowerOfTwo : Nat → Bool
  | 0 => false
  | 1 => true
  | n + 2 => decide ((n + 2) % 2 = 0) && isPowerOfTwo ((n + 2) / 2)
termination_by n => n
decreasing_by omega

/-- `JitterBuffer`. The two `Instant`-valued jitter inputs are modelled
by a `hasLastReceiveTime` flag (`last_receive_time.is_some()`) and by
passing each `insert` the measured inter-arrival time in µs as a ℚ
input; the `f64` EMA state is a ℚ. -/
structure JitterBuffer where
  slots : List (Option AudioFrame)
  capacity : Nat
  mask : Nat
  next_sequence : Nat
  min_delay : Nat
  max_delay : Nat
  target_delay : Nat
  level : Nat
  received : Nat
  lost : Nat
  late : Nat
  out_of_order : Nat
  hasLastReceiveTime : Bool
  jitter_estimate_us : ℚ
  initialized : Bool
deriving DecidableEq

/-- `JitterBuffer::new`; the `assert!(capacity.is_power_of_two())`
failure is the `none` result. -/
def JitterBuffer.new (capacity min_delay : Nat) : Option JitterBuffer :=
  if isPowerOfTwo capacity then
    some { slots := List.replicate capacity none
           capacity := capacity
           mask := capacity - 1
           next_sequence := 0
           min_delay := min_delay
           max_delay := capacity / 2
           target_delay := min_delay
           level := 0
           received := 0
           lost := 0
           late := 0
           out_of_order := 0
           hasLastReceiveTime := false
           jitter_estimate_us := 0
           initialized := false }
  else none

/-- `JitterBuffer::adapt_delay`: target = clamp(min_delay + ⌈jitter/10ms⌉,
min_delay, max_delay), slewed by at most one per call (the `f64 → usize`
cast saturates at 0, as `Int.toNat` does). -/
def JitterBuffer.adapt_delay (st : JitterBuffer) : JitterBuffer :=
  let jitter_frames := (qCeil (st.jitter_estimate_us / 10000)).toNat
  let new_target := rustClamp (st.min_delay + jitter_frames) st.min_delay
    st.max_delay
  if new_target > st.target_delay then
    { st with target_delay := min (st.target_delay + 1) new_target }
  else if new_target < st.target_delay ∧ st.level > new_target then
    { st with target_delay := max (st.target_delay - 1) new_target }
  else st

/-- The clock-reading prefix of `JitterBuffer::insert`: when a previous
receive time exists, fold the inter-arrival deviation from the expected
10000 µs into the EMA (α = 0.1) and adapt the target delay; then record
the receive time (`last_receive_time = Some(now)`). -/
def JitterBuffer.preInsert (st : JitterBuffer) (interArrivalUs : ℚ) :
    JitterBuffer :=
  let st :=
    if st.hasLastReceiveTime then
      ({ st with jitter_estimate_us :=
          st.jitter_estimate_us * (9 / 10) + |interArrivalUs - 10000| *
            (1 / 10) }).adapt_delay
    else st
  { st with hasLastReceiveTime := true }

/-- `JitterBuffer::insert`. After the clock phase: initialise
`next_sequence` on the first packet; drop as late when the signed 32-bit
delta is negative and its magnitude is *not strictly greater* than
`capacity as u32 / 2`; count out-of-order; store into slot
`sequence & mask`. -/
def JitterBuffer.insert (st : JitterBuffer) (frame : AudioFrame)
    (interArrivalUs : ℚ) : JitterBuffer × Bool :=
  let st := st.preInsert interArrivalUs
  let st := if ¬ st.initialized then
      { st with next_sequence := frame.sequence, initialized := true }
    else st
  let seq_diff := toI32 (wrappingSub32 frame.sequence st.next_sequence)
  if seq_diff < 0 ∧ ¬ ((-seq_diff).toNat > st.capacity % 2 ^ 32 / 2) then
    ({ st with late := st.late + 1 }, false)
  else
    let st := if seq_diff > 1 ∧ seq_diff < (toI32 st.capacity).tdiv 2 then
        { st with out_of_order := st.out_of_order + 1 }
      else st
    let index := frame.sequence &&& st.mask
    ({ st with slots := st.slots.set index (some frame)
               received := st.received + 1
               level := st.level + 1 }, true)

/-- `JitterBuffer::get_next`: nothing below the target delay; otherwise
take slot `next_sequence & mask` (a missing frame counts as lost), and
always advance `next_sequence` (wrapping). The `level` decrement only
happens on a hit, so the `Nat` subtraction cannot underflow below the
atomic's value. -/
def JitterBuffer.get_next (st : JitterBuffer) :
    JitterBuffer × Option AudioFrame :=
  if st.level < st.target_delay then (st, none)
  else
    let index := st.next_sequence &&& st.mask
    let frame := st.slots.getD index none
    let slots := st.slots.set index none
    let st := if frame.isSome then { st with level := st.level - 1 }
      else { st with lost := st.lost + 1 }
    ({ st with slots := slots
               next_sequence := (st.next_sequence + 1) % 2 ^ 32 }, frame)

/-- `JitterBuffer::force_get_next`: as `get_next` without the threshold;
its guarded `fetch_update` decrement is exactly `Nat` subtraction. -/
def JitterBuffer.force_get_next (st : JitterBuffer) :
    JitterBuffer × Option AudioFrame :=
  let index := st.next_sequence &&& st.mask
  let frame := st.slots.getD index none
  let slots := st.slots.set index none
  let st := if frame.isSome then { st with level := st.level - 1 }
    else { st with lost := st.lost + 1 }
  ({ st with slots := slots
             next_sequence := (st.next_sequence + 1) % 2 ^ 32 }, frame)

/-- `JitterBuffer::reset`: clear every slot in place, re-initialise the
delay state. -/
def JitterBuffer.reset (st : JitterBuffer) : JitterBuffer :=
  { st with slots := st.slots.map (fun _ => none)
            next_sequence := 0
            level := 0
            target_delay := st.min_delay
            jitter_estimate_us := 0
            hasLastReceiveTime := false
            initialized := false }

/-- `JitterBuffer::set_next_sequence`: reset, then adopt the given
sequence. -/
def JitterBuffer.set_next_sequence (st : JitterBuffer) (seq : Nat) :
    JitterBuffer :=
  { st.reset with next_sequence := seq, initialized := true }

/-- The concrete buffer of `JitterBuffer::new(16, 2)`. -/
def jb16 : JitterBuffer :=
  { slots := List.replicate 16 none
    capacity := 16
    mask := 15
    next_sequence := 0
    min_delay := 2
    max_delay := 8
    target_delay := 2
    level := 0
    received := 0
    lost := 0
    late := 0
    out_of_order := 0
    hasLastReceiveTime := false
    jitter_estimate_us := 0
    initialized := false }

/-- The scenario frames of S3 (sequences 2, 0, 1). -/
def s3Frame2 : AudioFrame := AudioFrame.new [] 2 20000 2

def s3Frame0 : AudioFrame := AudioFrame.new [] 2 0 0

def s3Frame1 : AudioFrame := AudioFrame.new [] 2 10000 1

/-- The buffer after the first S3 insert (sequence 2): the first-ever
insert captures `next_sequence = 2`. -/
def s3State1 : JitterBuffer :=
  { jb16 with
      slots := (List.replicate 16 none).set 2 (some s3Frame2)
      next_sequence := 2
      initialized := true
      hasLastReceiveTime := true
      level := 1
      received := 1 }

/-! ## Theorems for claims C2 and C3 -/

/-- Claim C2: serialising any well-formed `AudioPacket` and deserialising
the result returns the same packet field by field; any byte string that is
shorter than 16 bytes, or whose first two little-endian bytes are not the
magic `0xAF01`, deserialises to `None` (the embedding is total, so no
panic is possible). -/
theorem audio_packet_round_trip (p : AudioPacket) (hp : p.Wf) :
    AudioPacket.deserialize (AudioPacket.serialize p) = some p ∧
    (∀ B : List Nat, B.length < 16 → AudioPacket.deserialize B = none) ∧
    (∀ (b0 b1 : Nat) (rest : List Nat), readU16le b0 b1 ≠ PACKET_MAGIC →
      AudioPacket.deserialize (b0 :: b1 :: rest) = none) := by
  obtain ⟨ht, hf, hs, hts, hpl⟩ := hp
  refine ⟨?_, ?_, ?_⟩
  · show AudioPacket.deserialize
      (u16le PACKET_MAGIC ++ [p.track_id] ++ [p.flags.byte] ++
        u32le p.sequence ++ u64le p.timestamp ++ p.payload) = some p
    simp only [u16le, u32le, u64le, PACKET_MAGIC, List.cons_append,
      List.nil_append, AudioPacket.deserialize, List.length_cons, HEADER_SIZE]
    rw [if_neg (by omega)]
    rw [if_neg (by decide)]
    have e1 : readU32le (p.sequence % 256) (p.sequence / 256 % 256)
        (p.sequence / 65536 % 256) (p.sequence / 16777216 % 256) = p.sequence := by
      unfold readU32le; omega
    have e2 : readU64le (p.timestamp % 256) (p.timestamp / 256 % 256)
        (p.timestamp / 65536 % 256) (p.timestamp / 16777216 % 256)
        (p.timestamp / 4294967296 % 256) (p.timestamp / 1099511627776 % 256)
        (p.timestamp / 281474976710656 % 256)
        (p.timestamp / 72057594037927936 % 256) = p.timestamp := by
      unfold readU64le; omega
    simp [e1, e2]
  · intro B hB
    unfold AudioPacket.deserialize
    rw [if_pos (by simpa [HEADER_SIZE] using hB)]
  · intro b0 b1 rest hm
    unfold AudioPacket.deserialize
    by_cases hlen : (b0 :: b1 :: rest).length < HEADER_SIZE
    · rw [if_pos hlen]
    · rw [if_neg hlen]
      simp only [HEADER_SIZE, List.length_cons, not_lt] at hlen
      match rest with
      | r2 :: r3 :: r4 :: r5 :: r6 :: r7 :: r8 :: r9 :: r10 :: r11 :: r12 ::
        r13 :: r14 :: r15 :: rest' =>
          exact if_pos hm
      | [] => simp at hlen
      | [r2] => simp at hlen
      | [r2, r3] => simp at hlen
      | [r2, r3, r4] => simp at hlen
      | [r2, r3, r4, r5] => simp at hlen
      | [r2, r3, r4, r5, r6] => simp at hlen
      | [r2, r3, r4, r5, r6, r7] => simp at hlen
      | [r2, r3, r4, r5, r6, r7, r8] => simp at hlen
      | [r2, r3, r4, r5, r6, r7, r8, r9] => simp at hlen
      | [r2, r3, r4, r5, r6, r7, r8, r9, r10] => simp at hlen
      | [r2, r3, r4, r5, r6, r7, r8, r9, r10, r11] => simp at hlen
      | [r2, r3, r4, r5, r6, r7, r8, r9, r10, r11, r12] => simp at hlen
      | [r2, r3, r4, r5, r6, r7, r8, r9, r10, r11, r12, r13] =>
          simp at hlen

/-- Witness for `audio_packet_round_trip` at a concrete packet. -/
theorem audio_packet_round_trip_witness :
    AudioPacket.deserialize
      (AudioPacket.serialize ⟨5, ⟨3⟩, 12345, 9876543210, [1, 2, 3, 4, 5]⟩) =
      some ⟨5, ⟨3⟩, 12345, 9876543210, [1, 2, 3, 4, 5]⟩ :=
  (audio_packet_round_trip ⟨5, ⟨3⟩, 12345, 9876543210, [1, 2, 3, 4, 5]⟩
    (by refine ⟨by norm_num, by norm_num, by norm_num, by norm_num, ?_⟩
        intro b hb; fin_cases hb <;> norm_num)).1

/-- Claim C3 counterexample: the serialisation of the S1 packet does not
start with the 16 header bytes claimed by the spec
(`01 AF 05 03 39 30 00 00 EA 62 33 57 02 00 00 00`): the timestamp bytes
`EA 62 33 57 02 00 00 00` decode to 10052920042, not 9876543210. -/
theorem s1_header_bytes_counterexample :
    AudioPacket.serialize s1Packet ≠
      [0x01, 0xAF, 0x05, 0x03, 0x39, 0x30, 0x00, 0x00,
       0xEA, 0x62, 0x33, 0x57, 0x02, 0x00, 0x00, 0x00,
       0x01, 0x02, 0x03, 0x04, 0x05] := by
  decide

/-- Claim C3 (amended): serialising the S1 packet yields exactly the 16
header bytes `01 AF 05 03 39 30 00 00 EA 16 B0 4C 02 00 00 00` followed by
the payload bytes `01 02 03 04 05` (the little-endian encoding of
timestamp 9876543210 is `EA 16 B0 4C 02 00 00 00`). -/
theorem s1_header_bytes :
    AudioPacket.serialize s1Packet =
      [0x01, 0xAF, 0x05, 0x03, 0x39, 0x30, 0x00, 0x00,
       0xEA, 0x16, 0xB0, 0x4C, 0x02, 0x00, 0x00, 0x00,
       0x01, 0x02, 0x03, 0x04, 0x05] := by
  decide

/-! ### UTF-8 round-trip lemmas -/

theorem utf8Lossy_one (b : Nat) (hb : b < 0x80) (rest : List Nat) :
    utf8Lossy (b :: rest) = b :: utf8Lossy rest := by
  match rest with
  | [] => simp only [utf8Lossy, if_pos hb]
  | [x] => simp only [utf8Lossy, if_pos hb]
  | [x, y] => simp only [utf8Lossy, if_pos hb]
  | x :: y :: z :: r => simp only [utf8Lossy, if_pos hb]

theorem utf8Lossy_two (b b1 : Nat) (hb : 0xC2 ≤ b) (hb2 : b < 0xE0)
    (hs : sndOk b b1) (rest : List Nat) :
    utf8Lossy (b :: b1 :: rest) = dec2 b b1 :: utf8Lossy rest := by
  have h1 : ¬ b < 0x80 := by omega
  have h2 : ¬ b < 0xC2 := by omega
  match rest with
  | [] => simp only [utf8Lossy, if_neg h1, if_neg h2, if_pos hb2, if_pos hs]
  | [x] => simp only [utf8Lossy, if_neg h1, if_neg h2, if_pos hb2, if_pos hs]
  | x :: y :: r =>
      simp only [utf8Lossy, if_neg h1, if_neg h2, if_pos hb2, if_pos hs]

theorem utf8Lossy_three (b b1 b2 : Nat) (hb : 0xE0 ≤ b) (hb2 : b < 0xF0)
    (hs : sndOk b b1) (hc : contOk b2) (rest : List Nat) :
    utf8Lossy (b :: b1 :: b2 :: rest) = dec3 b b1 b2 :: utf8Lossy rest := by
  have h1 : ¬ b < 0x80 := by omega
  have h2 : ¬ b < 0xC2 := by omega
  have h3 : ¬ b < 0xE0 := by omega
  match rest with
  | [] =>
      simp only [utf8Lossy, if_neg h1, if_neg h2, if_neg h3, if_pos hb2,
        if_pos hs, if_pos hc]
  | x :: r =>
      simp only [utf8Lossy, if_neg h1, if_neg h2, if_neg h3, if_pos hb2,
        if_pos hs, if_pos hc]

theorem utf8Lossy_four (b b1 b2 b3 : Nat) (hb : 0xF0 ≤ b) (hb2 : b < 0xF5)
    (hs : sndOk b b1) (hc : contOk b2) (hc3 : contOk b3) (rest : List Nat) :
    utf8Lossy (b :: b1 :: b2 :: b3 :: rest) =
      dec4 b b1 b2 b3 :: utf8Lossy rest := by
  have h1 : ¬ b < 0x80 := by omega
  have h2 : ¬ b < 0xC2 := by omega
  have h3 : ¬ b < 0xE0 := by omega
  have h4 : ¬ b < 0xF0 := by omega
  simp only [utf8Lossy, if_neg h1, if_neg h2, if_neg h3, if_neg h4,
    if_pos hb2, if_pos hs, if_pos hc, if_pos hc3]

/-- Decoding an encoded scalar value consumes exactly its bytes. -/
theorem utf8Lossy_encodeChar (c : Nat) (h : ValidScalar c)
    (rest : List Nat) :
    utf8Lossy (utf8EncodeChar c ++ rest) = c :: utf8Lossy rest := by
  obtain ⟨hlt, hsur⟩ := h
  by_cases h1 : c < 0x80
  · simp only [utf8EncodeChar, if_pos h1, List.cons_append, List.nil_append]
    exact utf8Lossy_one c h1 rest
  · by_cases h2 : c < 0x800
    · simp only [utf8EncodeChar, if_neg h1, if_pos h2, List.cons_append,
        List.nil_append]
      have hs : sndOk (0xC0 + c / 64) (0x80 + c % 64) := by
        unfold sndOk sndLo sndHi
        split_ifs <;> omega
      rw [utf8Lossy_two (0xC0 + c / 64) (0x80 + c % 64) (by omega) (by omega)
        hs rest]
      have hv : dec2 (0xC0 + c / 64) (0x80 + c % 64) = c := by
        unfold dec2; omega
      rw [hv]
    · by_cases h3 : c < 0x10000
      · simp only [utf8EncodeChar, if_neg h1, if_neg h2, if_pos h3,
          List.cons_append, List.nil_append]
        have hs : sndOk (0xE0 + c / 4096) (0x80 + c / 64 % 64) := by
          unfold sndOk sndLo sndHi
          split_ifs <;> omega
        have hc : contOk (0x80 + c % 64) := by unfold contOk; omega
        rw [utf8Lossy_three (0xE0 + c / 4096) (0x80 + c / 64 % 64)
          (0x80 + c % 64) (by omega) (by omega) hs hc rest]
        have hv : dec3 (0xE0 + c / 4096) (0x80 + c / 64 % 64)
            (0x80 + c % 64) = c := by
          unfold dec3; omega
        rw [hv]
      · simp only [utf8EncodeChar, if_neg h1, if_neg h2, if_neg h3,
          List.cons_append, List.nil_append]
        have hs : sndOk (0xF0 + c / 262144) (0x80 + c / 4096 % 64) := by
          unfold sndOk sndLo sndHi
          split_ifs <;> omega
        have hc : contOk (0x80 + c / 64 % 64) := by unfold contOk; omega
        have hc3 : contOk (0x80 + c % 64) := by unfold contOk; omega
        rw [utf8Lossy_four (0xF0 + c / 262144) (0x80 + c / 4096 % 64)
          (0x80 + c / 64 % 64) (0x80 + c % 64) (by omega) (by omega)
          hs hc hc3 rest]
        have hv : dec4 (0xF0 + c / 262144) (0x80 + c / 4096 % 64)
            (0x80 + c / 64 % 64) (0x80 + c % 64) = c := by
          unfold dec4; omega
        rw [hv]

/-- `from_utf8_lossy` is a left inverse of UTF-8 encoding on valid
strings. -/
theorem utf8Lossy_encode (s : List Nat) (h : ∀ c ∈ s, ValidScalar c) :
    utf8Lossy (utf8Encode s) = s := by
  induction s with
  | nil => simp [utf8Encode, utf8Lossy]
  | cons c s ih =>
      have hc : ValidScalar c := h c (by simp)
      have hs : ∀ x ∈ s, ValidScalar x := fun x hx => h x (by simp [hx])
      calc utf8Lossy (utf8Encode (c :: s))
          = utf8Lossy (utf8EncodeChar c ++ utf8Encode s) := by
            simp [utf8Encode]
        _ = c :: utf8Lossy (utf8Encode s) := utf8Lossy_encodeChar c hc _
        _ = c :: s := by rw [ih hs]

/-! ### Theorems for claim C9 -/

theorem DiscoveryPacketType.try_from_toByte (t : DiscoveryPacketType) :
    DiscoveryPacketType.try_from t.toByte = some t := by
  cases t <;> rfl

/-- Claim C9 counterexample: for the name made of 86 copies of U+20AC
(each 3 UTF-8 bytes, 258 bytes in total), the serialised datagram's
name_len byte (offset 7) is `258 % 256 = 2` — not the byte length of the
name truncated at 255 bytes (255) — and the datagram is 266 bytes long,
with all 258 name bytes following the header rather than `name_len`
bytes. -/
theorem discovery_name_len_counterexample :
    (DiscoveryPacket.serialize
      (DiscoveryPacket.new .Request 5001 (List.replicate 86 0x20AC))).getD 7 0
      = 2 ∧
    (DiscoveryPacket.serialize
      (DiscoveryPacket.new .Request 5001 (List.replicate 86 0x20AC))).length
      = 266 := by
  constructor
  · set_option maxRecDepth 4000 in rfl
  · set_option maxRecDepth 4000 in rfl

/-- Claim C9 (amended): `DiscoveryPacket::new` truncates the name at 255
*characters* (not bytes); the datagram is the magic `LAND`, the type
byte, the port in u16 LE, a name_len byte equal to the UTF-8 byte length
of the truncated name reduced modulo 256, followed by the *entire* UTF-8
encoding of the truncated name. When that encoding is at most 255 bytes
(so the length fits the byte), `deserialize` returns the same type, the
same port, and the truncated name. -/
theorem discovery_round_trip (t : DiscoveryPacketType) (port : Nat)
    (name : List Nat) (hport : port < 2 ^ 16)
    (hname : ∀ c ∈ name, ValidScalar c)
    (hlen : (utf8Encode (name.take 255)).length ≤ 255) :
    DiscoveryPacket.serialize (DiscoveryPacket.new t port name) =
      DISCOVERY_MAGIC ++ [t.toByte] ++ u16le port ++
        [(utf8Encode (name.take 255)).length] ++
        utf8Encode (name.take 255) ∧
    DiscoveryPacket.deserialize
      (DiscoveryPacket.serialize (DiscoveryPacket.new t port name)) =
      some (DiscoveryPacket.new t port name) := by
  have hmod : (utf8Encode (name.take 255)).length % 256 =
      (utf8Encode (name.take 255)).length :=
    Nat.mod_eq_of_lt (by omega)
  constructor
  · simp only [DiscoveryPacket.serialize, DiscoveryPacket.new, hmod]
  · simp only [DiscoveryPacket.serialize, DiscoveryPacket.new, hmod,
      DISCOVERY_MAGIC, u16le, List.cons_append, List.nil_append]
    unfold DiscoveryPacket.deserialize
    rw [if_neg (by simp)]
    rw [if_neg (by simp [DISCOVERY_MAGIC])]
    simp only [DiscoveryPacketType.try_from_toByte]
    rw [if_neg (by omega)]
    have hname' : ∀ c ∈ name.take 255, ValidScalar c := fun c hc =>
      hname c (List.mem_of_mem_take hc)
    simp only [List.take_length, utf8Lossy_encode _ hname']
    have hp : readU16le (port % 256) (port / 256 % 256) = port := by
      unfold readU16le; omega
    simp [hp]

/-- Witness for `discovery_round_trip`: the S2 beacon
(`SenderBeacon`, port 5000, name `"Test Sender"`). -/
theorem discovery_round_trip_witness :
    DiscoveryPacket.deserialize
      (DiscoveryPacket.serialize (DiscoveryPacket.new .SenderBeacon 5000
        [84, 101, 115, 116, 32, 83, 101, 110, 100, 101, 114])) =
      some (DiscoveryPacket.new .SenderBeacon 5000
        [84, 101, 115, 116, 32, 83, 101, 110, 100, 101, 114]) :=
  (discovery_round_trip .SenderBeacon 5000
    [84, 101, 115, 116, 32, 83, 101, 110, 100, 101, 114]
    (by norm_num) (by decide) (by decide)).2

/-! ### Theorems for claims C5 and C6 -/

/-- Claim C5 counterexample: a `sender_only` manager receiving a Hello
from a `sender_only` peer (incompatible) replies with an Error packet,
but the recorded state for that peer address stays absent — it does not
become `Failed` (with reason "incompatible" or any other). -/
theorem handshake_incompatible_counterexample :
    (((HandshakeManager.new [] 5000 PeerCapabilities.sender_only).process_packet
        3 (HandshakePacket.hello 7 [] 6000 PeerCapabilities.sender_only)).1.get_state
      3 = none) ∧
    (((HandshakeManager.new [] 5000 PeerCapabilities.sender_only).process_packet
        3 (HandshakePacket.hello 7 [] 6000 PeerCapabilities.sender_only)).2.map
      (fun r => r.packet_type) = some HandshakePacketType.ErrorPacket) := by
  constructor
  · rfl
  · rfl

/-- Claim C5 (amended): when `process_packet` handles a Hello whose
declared capabilities are incompatible with the manager's own, it replies
with an Error packet (message "Несовместимые возможности пиров") and
returns with the states map — and the whole manager — unchanged; no
`Failed` state is recorded. -/
theorem handshake_incompatible_no_state_change (m : HandshakeManager)
    (addr : Nat) (pkt : HandshakePacket) (port : Nat)
    (caps : PeerCapabilities) (name : List Nat)
    (htype : pkt.packet_type = HandshakePacketType.Hello)
    (hparse : pkt.parse_hello = some (port, caps, name))
    (hincomp : m.our_capabilities.is_compatible_with caps = false) :
    m.process_packet addr pkt =
      (m, some (HandshakePacket.error pkt.session_id incompatibleMsg)) := by
  unfold HandshakeManager.process_packet
  rw [htype, hparse]
  simp [hincomp]

/-- Witness for `handshake_incompatible_no_state_change` at the concrete
sender/sender pair. -/
theorem handshake_incompatible_no_state_change_witness :
    (HandshakeManager.new [] 5000 PeerCapabilities.sender_only).process_packet
      3 (HandshakePacket.hello 7 [] 6000 PeerCapabilities.sender_only) =
      (HandshakeManager.new [] 5000 PeerCapabilities.sender_only,
        some (HandshakePacket.error 7 incompatibleMsg)) :=
  handshake_incompatible_no_state_change _ 3 _ 6000 PeerCapabilities.sender_only
    [] rfl (by decide) (by decide)

/-- Claim C6 counterexample: the capability set with `supports_opus` but
neither `can_send` nor `can_receive` is *not* compatible with `full()`,
because no direction of streaming is possible. -/
theorem full_compat_counterexample :
    PeerCapabilities.full.is_compatible_with
      { can_send := false, can_receive := false, supports_opus := true,
        supports_fec := false, supports_stereo := false, max_tracks := 0 } =
      false := by
  decide

/-- Claim C6 (amended): `sender_only` is compatible with `receiver_only`
and not with `sender_only`; `full()` is compatible with every capability
set that supports Opus *and* can send or can receive. -/
theorem capabilities_compatibility :
    PeerCapabilities.sender_only.is_compatible_with
      PeerCapabilities.receiver_only = true ∧
    PeerCapabilities.sender_only.is_compatible_with
      PeerCapabilities.sender_only = false ∧
    ∀ X : PeerCapabilities, X.supports_opus = true →
      (X.can_send = true ∨ X.can_receive = true) →
      PeerCapabilities.full.is_compatible_with X = true := by
  refine ⟨rfl, rfl, ?_⟩
  intro X hopus hsr
  unfold PeerCapabilities.is_compatible_with PeerCapabilities.full
  rcases hsr with h | h <;> simp [h, hopus]

/-- Witness for `capabilities_compatibility` at `X = receiver_only`. -/
theorem capabilities_compatibility_witness :
    PeerCapabilities.full.is_compatible_with
      PeerCapabilities.receiver_only = true :=
  capabilities_compatibility.2.2 PeerCapabilities.receiver_only rfl
    (Or.inr rfl)

/-! ### Theorems for claim C7 -/

theorem anySolo_insert_fresh (k : Nat) (l : List (Nat × Track))
    (hnone : mapLookup k l = none) :
    anySolo (mapInsert k Track.new l) = anySolo l := by
  induction l with
  | nil => simp [mapInsert, anySolo, Track.new]
  | cons p rest ih =>
      obtain ⟨k', v'⟩ := p
      by_cases h : k = k'
      · simp [mapLookup, h] at hnone
      · simp only [mapLookup, if_neg h] at hnone
        simp only [mapInsert, if_neg h, anySolo, List.any_cons]
        have hr := ih hnone
        simp only [anySolo] at hr
        rw [hr]

theorem anySolo_adjust_muted (id : Nat) (b : Bool)
    (l : List (Nat × Track)) :
    anySolo (mapAdjust id (fun t => { t with muted := b }) l) = anySolo l := by
  induction l with
  | nil => simp [mapAdjust]
  | cons p rest ih =>
      obtain ⟨k, t⟩ := p
      by_cases h : id = k
      · simp [mapAdjust, h, anySolo]
      · simp only [mapAdjust, if_neg h, anySolo, List.any_cons]
        have hr := ih
        simp only [anySolo] at hr
        rw [hr]

/-- The fresh manager satisfies the solo invariant. -/
theorem soloInv_new : SoloInv TrackManager.new := by
  simp [SoloInv, TrackManager.new, anySolo]

/-- `create_track` preserves the solo invariant (new tracks start
unsoloed and `solo_active` is untouched). -/
theorem soloInv_create_track (m : TrackManager) (h : SoloInv m)
    (i : Option Nat) : SoloInv (m.create_track i).1 := by
  unfold TrackManager.create_track
  split
  · exact h
  · rcases i with _ | id
    · simp only []
      split
      · exact h
      · rename_i hne
        simp only [SoloInv]
        rw [anySolo_insert_fresh _ _ (by
          simp only [Option.isSome] at hne
          split at hne
          · simp at hne
          · assumption)]
        exact h
    · simp only []
      split
      · exact h
      · rename_i hne
        simp only [SoloInv]
        rw [anySolo_insert_fresh _ _ (by
          simp only [Option.isSome] at hne
          split at hne
          · simp at hne
          · assumption)]
        exact h

/-- `set_muted` preserves the solo invariant (it does not touch solo
flags). -/
theorem soloInv_set_muted (m : TrackManager) (h : SoloInv m)
    (id : Nat) (b : Bool) : SoloInv (m.set_muted id b).1 := by
  unfold TrackManager.set_muted
  split
  · exact h
  · simp only [SoloInv]
    rw [anySolo_adjust_muted]
    exact h

/-- `set_solo` re-establishes the solo invariant by recomputation. -/
theorem soloInv_set_solo (m : TrackManager) (h : SoloInv m) (id : Nat)
    (b : Bool) : SoloInv (m.set_solo id b).1 := by
  unfold TrackManager.set_solo
  split
  · exact h
  · simp [SoloInv]

/-- `remove_track` re-establishes the solo invariant by recomputation. -/
theorem soloInv_remove_track (m : TrackManager) (h : SoloInv m) (id : Nat) :
    SoloInv (m.remove_track id).1 := by
  unfold TrackManager.remove_track
  split
  · exact h
  · simp [SoloInv]

/-- Claim C7: in any manager state whose cached `solo_active` flag agrees
with the track map (`SoloInv` — established by `soloInv_new`,
`soloInv_create_track`, `soloInv_set_muted`, `soloInv_set_solo` and
`soloInv_remove_track` for every reachable state), a present track plays
iff it is soloed and unmuted while any track is soloed, and iff it is
unmuted otherwise; and in the concrete two-track scenario, soloing track
1 silences track 0 and keeps track 1 playing, and additionally muting
track 1 silences it too. -/
theorem track_solo_semantics (m : TrackManager) (id : Nat) (t : Track)
    (hinv : SoloInv m) (hid : mapLookup id m.tracks = some t) :
    ((anySolo m.tracks = true →
        m.should_output id = (t.solo && !t.muted)) ∧
     (anySolo m.tracks = false → m.should_output id = !t.muted)) ∧
    ((((TrackManager.new.create_track none).1.create_track none).1.set_solo
        1 true).1.should_output 0 = false ∧
     (((TrackManager.new.create_track none).1.create_track none).1.set_solo
        1 true).1.should_output 1 = true ∧
     ((((TrackManager.new.create_track none).1.create_track none).1.set_solo
        1 true).1.set_muted 1 true).1.should_output 1 = false) := by
  refine ⟨⟨?_, ?_⟩, by decide, by decide, by decide⟩
  · intro h
    unfold TrackManager.should_output
    rw [hid]
    rw [SoloInv] at hinv
    rw [h] at hinv
    cases hm : t.muted <;> simp [hm, hinv]
  · intro h
    unfold TrackManager.should_output
    rw [hid]
    rw [SoloInv] at hinv
    rw [h] at hinv
    cases hm : t.muted <;> simp [hm, hinv]

/-- Witness for `track_solo_semantics` at the one-track manager
`soloWitnessManager` (no track soloed there, so output follows the mute
flag), plus the scenario conclusions. -/
theorem track_solo_semantics_witness :
    soloWitnessManager.should_output 0 = !Track.new.muted ∧
    (((TrackManager.new.create_track none).1.create_track none).1.set_solo
        1 true).1.should_output 0 = false :=
  ⟨(track_solo_semantics soloWitnessManager 0 Track.new
      (by unfold SoloInv; decide) (by decide)).1.2 (by decide),
   (track_solo_semantics soloWitnessManager 0 Track.new
      (by unfold SoloInv; decide) (by decide)).2.1⟩

/-! ### Theorems for claim C8 -/

theorem runOps_fifo (ops : List RBOp) (rb : RingBuffer) :
    rb.queue ++ (runOps rb ops).pushed =
      (runOps rb ops).popped ++ (runOps rb ops).state.queue := by
  induction ops generalizing rb with
  | nil => simp [runOps]
  | cons op ops ih =>
      cases op with
      | push f =>
          simp only [runOps, RingBuffer.push]
          by_cases hfull : rb.queue.length = rb.capacity
          · rw [if_pos hfull]
            simpa using ih { rb with overflow_count := rb.overflow_count + 1 }
          · rw [if_neg hfull]
            have h := ih { rb with queue := rb.queue ++ [f] }
            rw [List.append_assoc, List.singleton_append] at h
            exact h
      | pop =>
          simp only [runOps, RingBuffer.pop]
          match hq : rb.queue with
          | [] =>
              have h := ih { rb with underrun_count := rb.underrun_count + 1 }
              simpa [hq] using h
          | f :: rest =>
              have h := ih { rb with queue := rest }
              simp only [List.cons_append]
              rw [h]

theorem runOps_overflow (ops : List RBOp) (rb : RingBuffer) :
    (runOps rb ops).state.overflow_count =
      rb.overflow_count + (runOps rb ops).failPush := by
  induction ops generalizing rb with
  | nil => simp [runOps]
  | cons op ops ih =>
      cases op with
      | push f =>
          simp only [runOps, RingBuffer.push]
          by_cases hfull : rb.queue.length = rb.capacity
          · rw [if_pos hfull]
            have h := ih { rb with overflow_count := rb.overflow_count + 1 }
            simp only [] at h ⊢
            omega
          · rw [if_neg hfull]
            have h := ih { rb with queue := rb.queue ++ [f] }
            simp only [] at h ⊢
            omega
      | pop =>
          simp only [runOps, RingBuffer.pop]
          match hq : rb.queue with
          | [] =>
              have h := ih { rb with underrun_count := rb.underrun_count + 1 }
              simpa [hq] using h
          | f :: rest =>
              have h := ih { rb with queue := rest }
              simpa using h

theorem runOps_okPush (ops : List RBOp) (rb : RingBuffer) :
    (runOps rb ops).okPush = (runOps rb ops).pushed.length := by
  induction ops generalizing rb with
  | nil => simp [runOps]
  | cons op ops ih =>
      cases op with
      | push f =>
          simp only [runOps, RingBuffer.push]
          by_cases hfull : rb.queue.length = rb.capacity
          · rw [if_pos hfull]
            simpa using ih { rb with overflow_count := rb.overflow_count + 1 }
          · rw [if_neg hfull]
            have h := ih { rb with queue := rb.queue ++ [f] }
            simp only [List.length_cons] at h ⊢
            omega
      | pop =>
          simp only [runOps, RingBuffer.pop]
          match hq : rb.queue with
          | [] =>
              simpa [hq] using
                ih { rb with underrun_count := rb.underrun_count + 1 }
          | f :: rest =>
              simpa using ih { rb with queue := rest }

theorem runOps_okPop (ops : List RBOp) (rb : RingBuffer) :
    (runOps rb ops).okPop = (runOps rb ops).popped.length := by
  induction ops generalizing rb with
  | nil => simp [runOps]
  | cons op ops ih =>
      cases op with
      | push f =>
          simp only [runOps, RingBuffer.push]
          by_cases hfull : rb.queue.length = rb.capacity
          · rw [if_pos hfull]
            simpa using ih { rb with overflow_count := rb.overflow_count + 1 }
          · rw [if_neg hfull]
            simpa using ih { rb with queue := rb.queue ++ [f] }
      | pop =>
          simp only [runOps, RingBuffer.pop]
          match hq : rb.queue with
          | [] =>
              simpa [hq] using
                ih { rb with underrun_count := rb.underrun_count + 1 }
          | f :: rest =>
              have h := ih { rb with queue := rest }
              simp only [List.length_cons] at h ⊢
              omega

/-- Claim C8: for every finite sequence of `push`/`pop` calls on a ring
of capacity `C` (the SPSC interleaving sequentialised), successful pushes
minus successful pops equals the occupancy `len()`, failed pushes equal
`overflow_count`, the popped frames are exactly a prefix of the
successfully pushed frames in order (FIFO — the remainder still sits in
the queue); and on a ring of capacity 4, after four pushes the fifth push
fails and `overflow_count = 1`. -/
theorem ring_buffer_spsc (C : Nat) (ops : List RBOp) :
    (runOps (RingBuffer.new C) ops).okPush =
      (runOps (RingBuffer.new C) ops).okPop +
        (runOps (RingBuffer.new C) ops).state.len ∧
    (runOps (RingBuffer.new C) ops).state.overflow_count =
      (runOps (RingBuffer.new C) ops).failPush ∧
    (runOps (RingBuffer.new C) ops).pushed =
      (runOps (RingBuffer.new C) ops).popped ++
        (runOps (RingBuffer.new C) ops).state.queue ∧
    ((((((RingBuffer.new 4).push (AudioFrame.new [] 2 0 0)).1.push
        (AudioFrame.new [] 2 10000 1)).1.push
        (AudioFrame.new [] 2 20000 2)).1.push
        (AudioFrame.new [] 2 30000 3)).1.push
        (AudioFrame.new [] 2 40000 4)).2 = false ∧
    ((((((RingBuffer.new 4).push (AudioFrame.new [] 2 0 0)).1.push
        (AudioFrame.new [] 2 10000 1)).1.push
        (AudioFrame.new [] 2 20000 2)).1.push
        (AudioFrame.new [] 2 30000 3)).1.push
        (AudioFrame.new [] 2 40000 4)).1.overflow_count = 1 := by
  have hf := runOps_fifo ops (RingBuffer.new C)
  have hq : (RingBuffer.new C).queue = [] := rfl
  rw [hq, List.nil_append] at hf
  refine ⟨?_, ?_, hf, by decide, by decide⟩
  · have hlen := congrArg List.length hf
    simp only [List.length_append] at hlen
    rw [runOps_okPush, runOps_okPop]
    unfold RingBuffer.len
    omega
  · have h := runOps_overflow ops (RingBuffer.new C)
    simpa [RingBuffer.new] using h

/-! ### Jitter buffer lemmas -/

theorem isPowerOfTwo_iff (n : Nat) : isPowerOfTwo n = true ↔ ∃ k, n = 2 ^ k := by
  induction n using Nat.strong_induction_on with
  | _ n ih =>
    match n with
    | 0 =>
        constructor
        · intro h; simp [isPowerOfTwo] at h
        · rintro ⟨k, hk⟩
          exact absurd hk.symm (pow_pos (by norm_num : (0:ℕ) < 2) k).ne'
    | 1 =>
        constructor
        · intro _; exact ⟨0, rfl⟩
        · intro _; simp [isPowerOfTwo]
    | m + 2 =>
        rw [show isPowerOfTwo (m + 2) =
          (decide ((m + 2) % 2 = 0) && isPowerOfTwo ((m + 2) / 2)) from by
            simp [isPowerOfTwo]]
        rw [Bool.and_eq_true, decide_eq_true_eq]
        rw [ih ((m + 2) / 2) (by omega)]
        constructor
        · rintro ⟨heven, k, hk⟩
          refine ⟨k + 1, ?_⟩
          rw [pow_succ]
          omega
        · rintro ⟨k, hk⟩
          match k with
          | 0 => simp at hk
          | k + 1 =>
              rw [pow_succ] at hk
              exact ⟨by omega, k, by omega⟩

theorem new_16_2 : JitterBuffer.new 16 2 = some jb16 := by
  unfold JitterBuffer.new
  rw [(isPowerOfTwo_iff 16).mpr ⟨4, by norm_num⟩]
  rfl

/-- `adapt_delay` only changes `target_delay`. -/
theorem adapt_delay_eq (st : JitterBuffer) :
    st.adapt_delay = { st with target_delay := st.adapt_delay.target_delay } := by
  unfold JitterBuffer.adapt_delay
  dsimp only
  split_ifs <;> rfl

/-- The clock phase only changes `target_delay`, the jitter estimate and
the receive-time flag. -/
theorem preInsert_eq (st : JitterBuffer) (q : ℚ) :
    st.preInsert q = { st with
      target_delay := (st.preInsert q).target_delay
      jitter_estimate_us := (st.preInsert q).jitter_estimate_us
      hasLastReceiveTime := true } := by
  unfold JitterBuffer.preInsert
  by_cases h : st.hasLastReceiveTime
  · rw [if_pos h]
    rw [adapt_delay_eq]
  · rw [if_neg h]

theorem preInsert_fields (st : JitterBuffer) (q : ℚ) :
    (st.preInsert q).slots = st.slots ∧
    (st.preInsert q).capacity = st.capacity ∧
    (st.preInsert q).mask = st.mask ∧
    (st.preInsert q).next_sequence = st.next_sequence ∧
    (st.preInsert q).min_delay = st.min_delay ∧
    (st.preInsert q).max_delay = st.max_delay ∧
    (st.preInsert q).level = st.level ∧
    (st.preInsert q).received = st.received ∧
    (st.preInsert q).lost = st.lost ∧
    (st.preInsert q).late = st.late ∧
    (st.preInsert q).out_of_order = st.out_of_order ∧
    (st.preInsert q).initialized = st.initialized := by
  rw [preInsert_eq st q]
  simp

/-- `adapt_delay` keeps the target delay at or above `min_delay`. -/
theorem adapt_delay_target_ge (st : JitterBuffer)
    (hmm : st.min_delay ≤ st.max_delay)
    (ht : st.min_delay ≤ st.target_delay) :
    st.min_delay ≤ st.adapt_delay.target_delay := by
  unfold JitterBuffer.adapt_delay rustClamp
  dsimp only
  split_ifs <;> (try simp) <;> omega

/-- The clock phase keeps the target delay at or above `min_delay`. -/
theorem preInsert_target_ge (st : JitterBuffer) (q : ℚ)
    (hmm : st.min_delay ≤ st.max_delay)
    (ht : st.min_delay ≤ st.target_delay) :
    st.min_delay ≤ (st.preInsert q).target_delay := by
  unfold JitterBuffer.preInsert
  by_cases h : st.hasLastReceiveTime
  · rw [if_pos h]
    have := adapt_delay_target_ge
      { st with jitter_estimate_us :=
          st.jitter_estimate_us * (9 / 10) + |q - 10000| * (1 / 10) }
      (by simpa using hmm) (by simpa using ht)
    simpa using this
  · rw [if_neg h]
    simpa using ht

/-- On an initialised buffer, a negative delta whose magnitude is at most
`capacity as u32 / 2` is dropped as late: the frame is not stored and
only the late counter (beyond the clock phase) changes. -/
theorem insert_late (st : JitterBuffer) (fr : AudioFrame) (q : ℚ)
    (hinit : st.initialized = true)
    (hneg : toI32 (wrappingSub32 fr.sequence st.next_sequence) < 0)
    (hbehind : (-(toI32 (wrappingSub32 fr.sequence st.next_sequence))).toNat ≤
      st.capacity % 2 ^ 32 / 2) :
    st.insert fr q =
      ({ st.preInsert q with late := (st.preInsert q).late + 1 }, false) := by
  obtain ⟨hs, hc, hm, hn, _, _, _, _, _, _, _, hi⟩ := preInsert_fields st q
  unfold JitterBuffer.insert
  have hcond : (¬ (st.preInsert q).initialized = true) = False := by
    simp [hi, hinit]
  simp only [hcond, if_false, hn, hc]
  split_ifs with h2 h3
  · rfl
  · exact absurd ⟨hneg, by omega⟩ h2
  · exact absurd ⟨hneg, by omega⟩ h2

/-- On an initialised buffer, a frame that is not dropped as late is
stored in slot `sequence & mask`, incrementing level and received,
leaving the late counter alone. -/
theorem insert_stored (st : JitterBuffer) (fr : AudioFrame) (q : ℚ)
    (hinit : st.initialized = true)
    (hok : ¬ (toI32 (wrappingSub32 fr.sequence st.next_sequence) < 0 ∧
      ¬ ((-(toI32 (wrappingSub32 fr.sequence st.next_sequence))).toNat >
        st.capacity % 2 ^ 32 / 2))) :
    (st.insert fr q).2 = true ∧
    (st.insert fr q).1.slots =
      st.slots.set (fr.sequence &&& st.mask) (some fr) ∧
    (st.insert fr q).1.late = st.late ∧
    (st.insert fr q).1.level = st.level + 1 ∧
    (st.insert fr q).1.received = st.received + 1 := by
  obtain ⟨hs, hc, hm, hn, _, _, hl, hr, _, hlate, _, hi⟩ := preInsert_fields st q
  unfold JitterBuffer.insert
  have hcond : (¬ (st.preInsert q).initialized = true) = False := by
    simp [hi, hinit]
  simp only [hcond, if_false, hn, hc]
  rw [if_neg hok]
  split_ifs with h3 <;> simp [hs, hm, hlate, hl, hr]

/-! ### Theorems for claims C1, C4 and C10 -/

/-- Claim C4 counterexample: on capacity 16 with `next_sequence = 8`, a
frame with sequence 0 has delta `-8` and `|d| = 8 = N/2`; the claim says
it is wrap-future and stored, but the code's `behind > capacity/2` test
is strict, so it is dropped as late (`insert` returns `false` and the
late counter becomes 1). -/
theorem jitter_half_capacity_late_counterexample :
    ((jb16.set_next_sequence 8).insert (AudioFrame.new [] 2 0 0) 0).2 =
      false ∧
    ((jb16.set_next_sequence 8).insert (AudioFrame.new [] 2 0 0) 0).1.late =
      1 := by
  constructor
  · rfl
  · rfl

/-- Claim C4 (amended): for a frame whose signed 32-bit delta `d`
against `next_sequence` is negative, the packet is dropped as late when
`|d| ≤ capacity/2` (late counter incremented, slots and level untouched,
`insert` returns false), and treated as wrap-future and stored in slot
`sequence & mask` when `|d| > capacity/2` — the boundary `|d| = N/2` is
late, not wrap-future. -/
theorem jitter_late_boundary (st : JitterBuffer) (fr : AudioFrame) (q : ℚ)
    (hinit : st.initialized = true)
    (hneg : toI32 (wrappingSub32 fr.sequence st.next_sequence) < 0) :
    ((-(toI32 (wrappingSub32 fr.sequence st.next_sequence))).toNat ≤
        st.capacity % 2 ^ 32 / 2 →
      (st.insert fr q).2 = false ∧
      (st.insert fr q).1.late = st.late + 1 ∧
      (st.insert fr q).1.slots = st.slots ∧
      (st.insert fr q).1.level = st.level) ∧
    ((-(toI32 (wrappingSub32 fr.sequence st.next_sequence))).toNat >
        st.capacity % 2 ^ 32 / 2 →
      (st.insert fr q).2 = true ∧
      (st.insert fr q).1.slots =
        st.slots.set (fr.sequence &&& st.mask) (some fr) ∧
      (st.insert fr q).1.late = st.late) := by
  obtain ⟨hs, _, _, _, _, _, hl, _, _, hlate, _, _⟩ := preInsert_fields st q
  constructor
  · intro hb
    rw [insert_late st fr q hinit hneg hb]
    refine ⟨rfl, ?_, ?_, ?_⟩
    · simpa using hlate
    · simpa using hs
    · simpa using hl
  · intro hb
    obtain ⟨h1, h2, h3, _, _⟩ :=
      insert_stored st fr q hinit (fun h => h.2 (by omega))
    exact ⟨h1, h2, h3⟩

/-- Witness for `jitter_late_boundary`: capacity 16, `next_sequence = 12`,
sequence 0 (`d = -12`, `|d| > 8`): stored as wrap-future. -/
theorem jitter_late_boundary_witness :
    ((jb16.set_next_sequence 12).insert (AudioFrame.new [] 2 0 0) 0).2 =
      true ∧
    ((jb16.set_next_sequence 12).insert
        (AudioFrame.new [] 2 0 0) 0).1.slots =
      (jb16.set_next_sequence 12).slots.set
        (0 &&& (jb16.set_next_sequence 12).mask)
        (some (AudioFrame.new [] 2 0 0)) ∧
    ((jb16.set_next_sequence 12).insert
        (AudioFrame.new [] 2 0 0) 0).1.late =
      (jb16.set_next_sequence 12).late :=
  (jitter_late_boundary (jb16.set_next_sequence 12) (AudioFrame.new [] 2 0 0)
    0 (by decide) (by decide)).2 (by decide)

set_option maxHeartbeats 1000000 in
/-- Claim C1 (what the code actually does on the S3 scenario): inserting
sequences 2, 0, 1 into `JitterBuffer::new(16, 2)` — with arbitrary
inter-arrival clock readings — initialises `next_sequence = 2` from the
first insert, then drops sequences 0 and 1 as *late* (`insert` returns
false, `late` ends at 2, level stays 1), and the first `get_next()`
returns `None` because `level = 1 < target_delay` (which never drops
below `min_delay = 2`). The spec's S3 (and the repository's own
`test_jitter_buffer`, which unwraps `get_next()`) expects frames 0 and 1
to come back; the code cannot deliver them. -/
theorem s3_scenario_code_behavior (q1 q2 q3 : ℚ) :
    JitterBuffer.new 16 2 = some jb16 ∧
    jb16.insert s3Frame2 q1 = (s3State1, true) ∧
    (s3State1.insert s3Frame0 q2).2 = false ∧
    (((s3State1.insert s3Frame0 q2).1.insert s3Frame1 q3)).2 = false ∧
    ((s3State1.insert s3Frame0 q2).1.insert s3Frame1 q3).1.late = 2 ∧
    ((s3State1.insert s3Frame0 q2).1.insert s3Frame1 q3).1.level = 1 ∧
    (((s3State1.insert s3Frame0 q2).1.insert s3Frame1 q3).1.get_next).2 =
      none := by
  have e0 : jb16.preInsert q1 = { jb16 with hasLastReceiveTime := true } := by
    unfold JitterBuffer.preInsert
    dsimp only
    rw [if_neg (by decide)]
  have e1 : jb16.insert s3Frame2 q1 = (s3State1, true) := by
    unfold JitterBuffer.insert
    rw [e0]
    decide
  obtain ⟨p2s, p2c, p2m, p2n, p2mind, p2maxd, p2lvl, p2rcv, p2lost, p2late,
    p2ooo, p2init⟩ := preInsert_fields s3State1 q2
  have e2 : s3State1.insert s3Frame0 q2 =
      ({ s3State1.preInsert q2 with
          late := (s3State1.preInsert q2).late + 1 }, false) :=
    insert_late s3State1 s3Frame0 q2 rfl (by decide) (by decide)
  have f2init : (s3State1.insert s3Frame0 q2).1.initialized = true := by
    rw [e2]
    show (s3State1.preInsert q2).initialized = true
    rw [p2init]
    rfl
  have f2next : (s3State1.insert s3Frame0 q2).1.next_sequence = 2 := by
    rw [e2]
    show (s3State1.preInsert q2).next_sequence = 2
    rw [p2n]
    rfl
  have f2cap : (s3State1.insert s3Frame0 q2).1.capacity = 16 := by
    rw [e2]
    show (s3State1.preInsert q2).capacity = 16
    rw [p2c]
    rfl
  have f2lvl : (s3State1.insert s3Frame0 q2).1.level = 1 := by
    rw [e2]
    show (s3State1.preInsert q2).level = 1
    rw [p2lvl]
    rfl
  have f2late : (s3State1.insert s3Frame0 q2).1.late = 1 := by
    rw [e2]
    show (s3State1.preInsert q2).late + 1 = 1
    rw [p2late]
    rfl
  have f2mind : (s3State1.insert s3Frame0 q2).1.min_delay = 2 := by
    rw [e2]
    show (s3State1.preInsert q2).min_delay = 2
    rw [p2mind]
    rfl
  have f2maxd : (s3State1.insert s3Frame0 q2).1.max_delay = 8 := by
    rw [e2]
    show (s3State1.preInsert q2).max_delay = 8
    rw [p2maxd]
    rfl
  have f2tgt : 2 ≤ (s3State1.insert s3Frame0 q2).1.target_delay := by
    rw [e2]
    show 2 ≤ (s3State1.preInsert q2).target_delay
    exact preInsert_target_ge s3State1 q2 (by decide) (by decide)
  obtain ⟨p3s, p3c, p3m, p3n, p3mind, p3maxd, p3lvl, p3rcv, p3lost, p3late,
    p3ooo, p3init⟩ := preInsert_fields ((s3State1.insert s3Frame0 q2).1) q3
  have e3 : (s3State1.insert s3Frame0 q2).1.insert s3Frame1 q3 =
      ({ (s3State1.insert s3Frame0 q2).1.preInsert q3 with
          late := ((s3State1.insert s3Frame0 q2).1.preInsert q3).late + 1 },
        false) := by
    refine insert_late _ _ _ f2init ?_ ?_
    · rw [f2next]
      show toI32 (wrappingSub32 1 2) < 0
      decide
    · rw [f2next, f2cap]
      show (-(toI32 (wrappingSub32 1 2))).toNat ≤ 16 % 2 ^ 32 / 2
      decide
  have f3late : ((s3State1.insert s3Frame0 q2).1.insert s3Frame1 q3).1.late =
      2 := by
    rw [e3]
    show ((s3State1.insert s3Frame0 q2).1.preInsert q3).late + 1 = 2
    rw [p3late, f2late]
  have f3lvl : ((s3State1.insert s3Frame0 q2).1.insert s3Frame1 q3).1.level =
      1 := by
    rw [e3]
    show ((s3State1.insert s3Frame0 q2).1.preInsert q3).level = 1
    rw [p3lvl, f2lvl]
  have f3tgt : 2 ≤
      ((s3State1.insert s3Frame0 q2).1.insert s3Frame1 q3).1.target_delay := by
    rw [e3]
    show 2 ≤ ((s3State1.insert s3Frame0 q2).1.preInsert q3).target_delay
    have := preInsert_target_ge ((s3State1.insert s3Frame0 q2).1) q3
      (by rw [f2mind, f2maxd]; norm_num) (by rw [f2mind]; exact f2tgt)
    rw [f2mind] at this
    exact this
  refine ⟨new_16_2, e1, by rw [e2], by rw [e3], f3late, f3lvl, ?_⟩
  unfold JitterBuffer.get_next
  rw [if_pos (by rw [f3lvl]; omega)]

/-- Claim C10: `JitterBuffer::new` fails its assertion exactly on
capacities that are not powers of two; on success the mask is
`capacity - 1` and the slot vector has `capacity` entries; and for any
state with those dimensions, every slot index the operations compute —
`sequence & mask` in `insert`, `next_sequence & mask` in `get_next` and
`force_get_next` — is strictly below `capacity` and the slot-vector
length, and the operations preserve those dimensions, so no slot access
is out of bounds. -/
theorem jitter_power_of_two_safety (cap d : Nat) (st : JitterBuffer)
    (hmask : st.mask = st.capacity - 1)
    (hlen : st.slots.length = st.capacity) (hpos : 0 < st.capacity) :
    (JitterBuffer.new cap d = none ↔ ¬ ∃ k, cap = 2 ^ k) ∧
    (∀ st2, JitterBuffer.new cap d = some st2 →
      st2.mask = st2.capacity - 1 ∧ st2.capacity = cap ∧
      st2.slots.length = st2.capacity ∧ 0 < st2.capacity) ∧
    (∀ seq : Nat, seq &&& st.mask < st.capacity ∧
      seq &&& st.mask < st.slots.length) ∧
    (∀ fr q, (st.insert fr q).1.mask = st.mask ∧
      (st.insert fr q).1.capacity = st.capacity ∧
      (st.insert fr q).1.slots.length = st.slots.length) ∧
    (st.get_next.1.mask = st.mask ∧ st.get_next.1.capacity = st.capacity ∧
      st.get_next.1.slots.length = st.slots.length) ∧
    (st.force_get_next.1.mask = st.mask ∧
      st.force_get_next.1.capacity = st.capacity ∧
      st.force_get_next.1.slots.length = st.slots.length) := by
  refine ⟨?_, ?_, ?_, ?_, ?_, ?_⟩
  · unfold JitterBuffer.new
    by_cases hp : isPowerOfTwo cap = true
    · rw [if_pos hp]
      simp only [reduceCtorEq, false_iff, not_not]
      exact (isPowerOfTwo_iff cap).mp hp
    · rw [if_neg hp]
      simp only [true_iff]
      rw [← isPowerOfTwo_iff]
      simpa using hp
  · intro st2 h2
    unfold JitterBuffer.new at h2
    by_cases hp : isPowerOfTwo cap = true
    · rw [if_pos hp] at h2
      obtain ⟨k, hk⟩ := (isPowerOfTwo_iff cap).mp hp
      obtain rfl := Option.some.inj h2
      refine ⟨rfl, rfl, by simp, ?_⟩
      show 0 < cap
      rw [hk]
      positivity
    · rw [if_neg hp] at h2
      exact absurd h2 (by simp)
  · intro seq
    have hb : seq &&& st.mask ≤ st.mask := Nat.and_le_right
    constructor
    · omega
    · omega
  · intro fr q
    obtain ⟨hs, hc, hm, _, _, _, _, _, _, _, _, hi⟩ := preInsert_fields st q
    unfold JitterBuffer.insert
    dsimp only
    split_ifs <;>
      simp [hs, hc, hm, List.length_set]
  · unfold JitterBuffer.get_next
    dsimp only
    split_ifs <;> simp [List.length_set]
  · unfold JitterBuffer.force_get_next
    dsimp only
    split_ifs <;> simp [List.length_set]

/-- Witness for `jitter_power_of_two_safety` at capacity 16 and the
concrete buffer `jb16`, slot index for sequence 100. -/
theorem jitter_power_of_two_safety_witness :
    100 &&& jb16.mask < jb16.capacity ∧
    100 &&& jb16.mask < jb16.slots.length :=
  (jitter_power_of_two_safety 16 2 jb16 (by decide) (by decide)
    (by decide)).2.2.1 100
